import Mathlib

/-!
Verification development for the RB cyber-report generator
(`report_builder.py`, final revision).

The Python data values flowing through the program are JSON trees
(`json.loads` output): `None`, booleans, integers, floats, strings,
lists and dicts.  Python dicts are modelled as association lists with
unique keys in insertion order, which is exactly what `json.loads`
produces (duplicate keys: last value wins, first position kept).
-/

/-- A Python float as produced by `json.loads`: either the value of a
finite decimal literal, kept exactly as mantissa·10^exponent (the
IEEE-754 rounding Python applies to the decimal is not modelled — no
claim depends on float arithmetic), or one of the `NaN` /
`Infinity` / `-Infinity` constants `json.loads` accepts by default. -/
inductive PyFloat where
  | finite : Int → Int → PyFloat
  | nan : PyFloat
  | inf : Bool → PyFloat
deriving Inhabited

inductive JVal where
  | jnull : JVal
  | jbool : Bool → JVal
  | jint : Int → JVal
  | jfloat : PyFloat → JVal
  | jstr : String → JVal
  | jarr : List JVal → JVal
  | jobj : List (String × JVal) → JVal
deriving Inhabited

/-- Python `v == "lit"` for a string literal: true only when `v` is that
string (Python cross-type `==` is `False`). -/
def pyEqStr (v : JVal) (lit : String) : Bool :=
  match v with
  | .jstr s => s == lit
  | _ => false

/-- Python `v is None`. -/
def isNone : JVal → Bool
  | .jnull => true
  | _ => false

/-- Python truthiness (`bool(x)`): `None`, `False`, `0`, `""`, `[]`, `{}`
are falsy, everything else truthy. -/
def truthy : JVal → Bool
  | .jnull => false
  | .jbool b => b
  | .jint n => n != 0
  | .jfloat (.finite m _) => m != 0
  | .jfloat .nan => true
  | .jfloat (.inf _) => true
  | .jstr s => !s.isEmpty
  | .jarr xs => !xs.isEmpty
  | .jobj fs => !fs.isEmpty

/-- Python `a or b` (both operands already evaluated; where the source
relies on short-circuiting to avoid a raise, the embedding sequences the
effects explicitly instead). -/
def pyOr (a b : JVal) : JVal := if truthy a then a else b

/-- Key lookup in a dict (unique keys, insertion order). -/
def lookupKey (fs : List (String × JVal)) (k : String) : Option JVal :=
  (fs.find? (fun p => p.1 == k)).map (·.2)

/-- Python `d.get(k, default)` on an actual dict. -/
def jget (fs : List (String × JVal)) (k : String) (d : JVal) : JVal :=
  (lookupKey fs k).getD d

/-- Python `v.get(k, default)` on an arbitrary value: raises
`AttributeError` unless `v` is a dict. -/
def pyGet (v : JVal) (k : String) (d : JVal) : Except String JVal :=
  match v with
  | .jobj fs => .ok (jget fs k d)
  | _ => .error "AttributeError: no attribute get"

/-- Value of a (known-valid) digit string. -/
def digitsToNat (cs : List Char) : Nat :=
  cs.foldl (fun a c => a * 10 + (c.toNat - 48)) 0

/-- Digit-string value for `int(...)`; ASCII digits only (Python also
accepts Unicode digits and underscore separators, which no input here
uses). -/
def digitsVal : List Char → Option Nat
  | [] => none
  | cs => if cs.all Char.isDigit then some (digitsToNat cs) else none

/-- Drop leading whitespace characters. -/
def dropWhileWs : List Char → List Char
  | [] => []
  | c :: rest => if c.isWhitespace then dropWhileWs rest else c :: rest

/-- Python `s.strip()`: remove whitespace from both ends.  (Python
strips all Unicode whitespace; the ASCII whitespace classes suffice for
every value this program manipulates.) -/
def pyStrip (s : String) : String :=
  String.mk (dropWhileWs (dropWhileWs s.data).reverse).reverse

/-- Python `int(s)` on a string: strip whitespace, optional sign, digits;
`none` models the `ValueError` raise. -/
def pyParseInt (s : String) : Option Int :=
  match (pyStrip s).data with
  | '-' :: rest => (digitsVal rest).map (fun n => -(n : Int))
  | '+' :: rest => (digitsVal rest).map (fun n => (n : Int))
  | rest => (digitsVal rest).map (fun n => (n : Int))

/-- Python `int(v)` on a JSON value; `none` models the raise
(`TypeError`/`ValueError`/`OverflowError`).  `int(True) = 1`,
`int(False) = 0`; `int(float)` truncates toward zero; `int(nan)` and
`int(±inf)` raise. -/
def pyToIntOpt : JVal → Option Int
  | .jint n => some n
  | .jbool b => some (if b then 1 else 0)
  | .jfloat (.finite m e) =>
    some (if 0 ≤ e then m * 10 ^ e.toNat else Int.tdiv m (10 ^ (-e).toNat))
  | .jfloat .nan => none
  | .jfloat (.inf _) => none
  | .jstr s => pyParseInt s
  | _ => none

/-- Single-quote character, for Python `repr` of strings. -/
def squote : String := String.mk [Char.ofNat 39]

mutual
/-- Python `repr(v)` (used by `str` on containers).  String escaping,
the single/double quote choice inside `repr`, and Python's
shortest-round-trip float formatting are not modelled (no claim depends
on the rendered text of container or float values). -/
def pyRepr : JVal → String
  | .jnull => "None"
  | .jbool b => if b then "True" else "False"
  | .jint n => toString n
  | .jfloat (.finite m e) => toString m ++ "e" ++ toString e
  | .jfloat .nan => "nan"
  | .jfloat (.inf neg) => if neg then "-inf" else "inf"
  | .jstr s => squote ++ s ++ squote
  | .jarr xs => "[" ++ String.intercalate ", " (pyReprElems xs) ++ "]"
  | .jobj fs => "\x7b" ++ String.intercalate ", " (pyReprFields fs) ++ "\x7d"

def pyReprElems : List JVal → List String
  | [] => []
  | x :: rest => pyRepr x :: pyReprElems rest

def pyReprFields : List (String × JVal) → List String
  | [] => []
  | (k, v) :: rest => (squote ++ k ++ squote ++ ": " ++ pyRepr v) :: pyReprFields rest
end

/-- Python `str(v)`. -/
def pyStr : JVal → String
  | .jstr s => s
  | v => pyRepr v

mutual
/-- `_normalize_extended_json`: recursively unwraps single-key
`{"$date": v}` (value passed through unchanged) and
`{"$numberLong": v}` (`int(v)`, keeping `v` when the conversion
raises); all other mappings and all sequences are rebuilt with the
rewrite applied to each member. -/
def normalizeExt : JVal → JVal
  | .jobj [(k, v)] =>
    if k = "$date" then v
    else if k = "$numberLong" then
      match pyToIntOpt v with
      | some n => .jint n
      | none => v
    else .jobj [(k, normalizeExt v)]
  | .jobj fields => .jobj (normalizeFields fields)
  | .jarr xs => .jarr (normalizeElems xs)
  | v => v

def normalizeFields : List (String × JVal) → List (String × JVal)
  | [] => []
  | (k, v) :: rest => (k, normalizeExt v) :: normalizeFields rest

def normalizeElems : List JVal → List JVal
  | [] => []
  | x :: rest => normalizeExt x :: normalizeElems rest
end

/-- `_strip_to_json`: `text[text.find("\x7b"):]`, `none` models the
`ValueError` raise when no opening brace exists. -/
def stripToJson : List Char → Option (List Char)
  | [] => none
  | c :: rest => if c = '{' then some (c :: rest) else stripToJson rest

/-! ### A model of `json.loads`

Recursive-descent parser over the JSON grammar accepted by
`json.loads` in its default configuration, made total with a fuel
argument: objects, arrays, strings, integers, floats (fraction and/or
exponent), the `NaN`/`Infinity`/`-Infinity` constants, `true`, `false`,
`null`.  Simplifications, all irrelevant to the claims: float literal
values are kept as exact decimals instead of being rounded to IEEE-754
doubles, `\uXXXX` escapes decode a single code unit (surrogate pairs
are not recombined), and Unicode category checks beyond ASCII are not
modelled. -/

/-- JSON whitespace as accepted by `json.loads`. -/
def skipWs : List Char → List Char
  | c :: rest =>
    if c = ' ' || c = '\t' || c = '\n' || c = '\r' then skipWs rest else c :: rest
  | [] => []

/-- Hex digit value. -/
def hexVal (c : Char) : Option Nat :=
  if '0' ≤ c ∧ c ≤ '9' then some (c.toNat - 48)
  else if 'a' ≤ c ∧ c ≤ 'f' then some (c.toNat - 87)
  else if 'A' ≤ c ∧ c ≤ 'F' then some (c.toNat - 55)
  else none

/-- Body of a JSON string literal, after the opening quote. -/
def parseStrBody : Nat → List Char → List Char → Option (String × List Char)
  | 0, _, _ => none
  | _ + 1, [], _ => none
  | fuel + 1, c :: rest, acc =>
    if c = '"' then some (String.mk acc.reverse, rest)
    else if c = '\\' then
      match rest with
      | 'u' :: h1 :: h2 :: h3 :: h4 :: rest2 =>
        match hexVal h1, hexVal h2, hexVal h3, hexVal h4 with
        | some a, some b, some c2, some d =>
          parseStrBody fuel rest2 (Char.ofNat (((a * 16 + b) * 16 + c2) * 16 + d) :: acc)
        | _, _, _, _ => none
      | e :: rest2 =>
        let dec : Option Char :=
          if e = '"' then some '"'
          else if e = '\\' then some '\\'
          else if e = '/' then some '/'
          else if e = 'b' then some (Char.ofNat 8)
          else if e = 'f' then some (Char.ofNat 12)
          else if e = 'n' then some '\n'
          else if e = 'r' then some '\r'
          else if e = 't' then some '\t'
          else none
        match dec with
        | some d => parseStrBody fuel rest2 (d :: acc)
        | none => none
      | [] => none
    else if c.toNat < 32 then none  -- strict mode rejects raw control chars
    else parseStrBody fuel rest (c :: acc)

/-- JSON number literal, the regex `json.loads` matches:
`-?(0|[1-9][0-9]*)(\.[0-9]+)?([eE][+-]?[0-9]+)?`.  A bare integer part
yields a Python int; a literal with a fraction or an exponent yields a
float, kept exactly as mantissa·10^exponent. -/
def parseNum (cs : List Char) : Option (JVal × List Char) :=
  let (neg, cs1) := match cs with
    | '-' :: rest => (true, rest)
    | rest => (false, rest)
  match cs1 with
  | [] => none
  | d :: rest =>
    if !d.isDigit then none
    else
      let intDigits := (d :: rest).takeWhile Char.isDigit
      let rest2 := (d :: rest).dropWhile Char.isDigit
      if d = '0' ∧ intDigits.length > 1 then none
      else
        let fracParse : Option (List Char × List Char) :=
          match rest2 with
          | '.' :: fr =>
            let fd := fr.takeWhile Char.isDigit
            if fd.isEmpty then none else some (fd, fr.dropWhile Char.isDigit)
          | _ => some ([], rest2)
        match fracParse with
        | none => none
        | some (fracDigits, rest3) =>
          let expParse : Option (Option Int × List Char) :=
            match rest3 with
            | e :: er =>
              if e = 'e' ∨ e = 'E' then
                let (eneg, er2) := match er with
                  | '+' :: t => (false, t)
                  | '-' :: t => (true, t)
                  | t => (false, t)
                let ed := er2.takeWhile Char.isDigit
                if ed.isEmpty then none
                else
                  some (some (if eneg then -(digitsToNat ed : Int)
                              else (digitsToNat ed : Int)),
                        er2.dropWhile Char.isDigit)
              else some (none, rest3)
            | [] => some (none, rest3)
          match expParse with
          | none => none
          | some (expOpt, rest4) =>
            if fracDigits.isEmpty ∧ expOpt.isNone then
              let n : Int := (digitsToNat intDigits : Int)
              some (.jint (if neg then -n else n), rest4)
            else
              let m : Int := (digitsToNat (intDigits ++ fracDigits) : Int)
              let ex : Int := expOpt.getD 0 - (fracDigits.length : Int)
              some (.jfloat (.finite (if neg then -m else m) ex), rest4)

/-- Insert into a dict as Python does on duplicate keys: first position
kept, value replaced. -/
def objInsert (fs : List (String × JVal)) (k : String) (v : JVal) :
    List (String × JVal) :=
  match fs with
  | [] => [(k, v)]
  | (k1, v1) :: rest =>
    if k1 = k then (k1, v) :: rest else (k1, v1) :: objInsert rest k v

mutual
def parseVal : Nat → List Char → Option (JVal × List Char)
  | 0, _ => none
  | fuel + 1, cs =>
    match skipWs cs with
    | [] => none
    | c :: rest =>
      if c = '{' then
        match skipWs rest with
        | '}' :: rest2 => some (.jobj [], rest2)
        | rest2 => parseObjItems fuel rest2 []
      else if c = '[' then
        match skipWs rest with
        | ']' :: rest2 => some (.jarr [], rest2)
        | rest2 => parseArrItems fuel rest2 []
      else if c = '"' then
        match parseStrBody (rest.length + 1) rest [] with
        | some (s, rest2) => some (.jstr s, rest2)
        | none => none
      else if c = 't' then
        match rest with
        | 'r' :: 'u' :: 'e' :: rest2 => some (.jbool true, rest2)
        | _ => none
      else if c = 'f' then
        match rest with
        | 'a' :: 'l' :: 's' :: 'e' :: rest2 => some (.jbool false, rest2)
        | _ => none
      else if c = 'n' then
        match rest with
        | 'u' :: 'l' :: 'l' :: rest2 => some (.jnull, rest2)
        | _ => none
      else if c = 'N' then
        match rest with
        | 'a' :: 'N' :: rest2 => some (.jfloat .nan, rest2)
        | _ => none
      else if c = 'I' then
        match rest with
        | 'n' :: 'f' :: 'i' :: 'n' :: 'i' :: 't' :: 'y' :: rest2 =>
          some (.jfloat (.inf false), rest2)
        | _ => none
      else if c = '-' then
        match rest with
        | 'I' :: 'n' :: 'f' :: 'i' :: 'n' :: 'i' :: 't' :: 'y' :: rest2 =>
          some (.jfloat (.inf true), rest2)
        | _ => parseNum (c :: rest)
      else parseNum (c :: rest)

def parseArrItems : Nat → List Char → List JVal → Option (JVal × List Char)
  | 0, _, _ => none
  | fuel + 1, cs, acc =>
    match parseVal fuel cs with
    | none => none
    | some (v, rest) =>
      match skipWs rest with
      | ',' :: rest2 => parseArrItems fuel rest2 (v :: acc)
      | ']' :: rest2 => some (.jarr (v :: acc).reverse, rest2)
      | _ => none

def parseObjItems : Nat → List Char → List (String × JVal) →
    Option (JVal × List Char)
  | 0, _, _ => none
  | fuel + 1, cs, acc =>
    match skipWs cs with
    | '"' :: rest =>
      match parseStrBody (rest.length + 1) rest [] with
      | none => none
      | some (k, rest2) =>
        match skipWs rest2 with
        | ':' :: rest3 =>
          match parseVal fuel rest3 with
          | none => none
          | some (v, rest4) =>
            match skipWs rest4 with
            | ',' :: rest5 => parseObjItems fuel rest5 (objInsert acc k v)
            | '}' :: rest5 => some (.jobj (objInsert acc k v), rest5)
            | _ => none
        | _ => none
    | _ => none
end

/-- `json.loads`: parse one JSON value and require only whitespace
after it; `none` models `json.JSONDecodeError`. -/
def jsonParse (cs : List Char) : Option JVal :=
  match parseVal (2 * cs.length + 2) cs with
  | some (v, rest) => if skipWs rest = [] then some v else none
  | none => none

/-- `load_json_from_text`: strip to the first brace, parse as JSON,
normalize.  The `Except.error` cases model the spec's
`MalformedInputError` (in the source, `ValueError` from
`_strip_to_json` and `json.JSONDecodeError` from `json.loads`); both
propagate, so no partial document is ever produced. -/
def load_json_from_text (text : List Char) : Except String JVal :=
  match stripToJson text with
  | none => .error "No JSON object found in input text."
  | some raw =>
    match jsonParse raw with
    | none => .error "JSONDecodeError"
    | some data => .ok (normalizeExt data)

/-! ### Findings model and rule engine (`build_findings`) -/

/-- The `Finding` dataclass.  `details` holds the evidence pairs; the
source annotates values as `str` but actually stores whatever value the
expression produced (e.g. `domain` is stored unconverted), so values
are modelled as `JVal`, with `.jstr` for the entries the source builds
via `str(...)` or string formatting. -/
structure Finding where
  number : Nat
  title : String
  status : String
  headline : String
  summary : String
  details : List (String × JVal)

/-- `is_pwned` as read by check 1: `hibp.get("summary", {}).get("is_pwned", False)`
passed through `bool(...)`.  (When `summary` is present but not a
mapping the source raises before producing any finding; that case is
unreachable under a successful `build_findings` run.) -/
def isPwnedOf (hibp : List (String × JVal)) : Bool :=
  match jget hibp "summary" (.jobj []) with
  | .jobj s => truthy (jget s "is_pwned" (.jbool false))
  | _ => false

/-- `grade = ssl.get("grade") or "N/A"`. -/
def gradeOf (ssl : List (String × JVal)) : JVal :=
  pyOr (jget ssl "grade" .jnull) (.jstr "N/A")

/-- Python `x in collection` for iterating arbitrary values: lists
iterate elements, strings iterate 1-character strings, dicts iterate
keys; anything else raises `TypeError`. -/
def pyIter : JVal → Except String (List JVal)
  | .jarr xs => .ok xs
  | .jstr s => .ok (s.data.map (fun c => .jstr (String.singleton c)))
  | .jobj fs => .ok (fs.map (fun p => .jstr p.1))
  | _ => .error "TypeError: not iterable"

/-- Python `sep.join(xs)`: every element must be a string, otherwise
`TypeError`. -/
def pyJoin (sep : String) (xs : List JVal) : Except String String := do
  let strs ← xs.mapM (fun v =>
    match v with
    | JVal.jstr s => Except.ok s
    | _ => Except.error "TypeError: sequence item is not str")
  return String.intercalate sep strs

/-- Python `int(v)` as an effect (`none` of `pyToIntOpt` becomes a
raise). -/
def pyToInt (v : JVal) : Except String Int :=
  match pyToIntOpt v with
  | some n => .ok n
  | none => .error "ValueError or TypeError in int()"

/-- `x[0]` on an arbitrary value (only reached when `x` is truthy):
list/str index, dict key lookup of `0` (always `KeyError` here since
JSON keys are strings), `TypeError` otherwise. -/
def pyIndex0 : JVal → Except String JVal
  | .jarr (x :: _) => .ok x
  | .jarr [] => .error "IndexError"
  | .jstr s =>
    match s.data with
    | c :: _ => .ok (.jstr (String.singleton c))
    | [] => .error "IndexError"
  | .jobj _ => .error "KeyError: 0"
  | _ => .error "TypeError: not subscriptable"

/-- Check 1, Account compromise (HIBP), source lines 92–128. -/
def finding1 (hibp : List (String × JVal)) : Except String Finding := do
  let hibpSummary := jget hibp "summary" (.jobj [])
  let bf ← pyGet hibpSummary "breaches_found" (.jint 0)
  let breachesFound ← pyToInt (pyOr bf (.jint 0))
  let pf ← pyGet hibpSummary "pastes_found" (.jint 0)
  let pastesFound ← pyToInt (pyOr pf (.jint 0))
  let ipw ← pyGet hibpSummary "is_pwned" (.jbool false)
  let isPwned := truthy ipw
  let hibpRaw := jget hibp "raw" (.jobj [])
  let breachesV ← pyGet hibpRaw "breaches" .jnull
  let items ← pyIter (pyOr breachesV (.jarr []))
  let names := items.filterMap (fun b =>
    match b with
    | JVal.jobj bf => some (jget bf "Name" .jnull)
    | _ => none)
  let breaches := names.filter (fun x => truthy x)
  let joined ← pyJoin ", " breaches
  return { number := 1
           title := "Account compromise"
           status := if isPwned then "RISK" else "PASS"
           headline := if isPwned then "Bad News!" else "Great News!"
           summary :=
             "Our dark web research indicates your email address " ++
             (if isPwned then "has" else "has not") ++
             " been recorded as part of " ++
             (if isPwned then "one or more" else "any") ++
             " data breaches."
           details :=
             [("Email", .jstr (pyStr (jget hibp "email" (.jstr "N/A")))),
              ("Breaches found", .jstr (toString breachesFound)),
              ("Pastes found", .jstr (toString pastesFound)),
              ("Breaches", .jstr (if breaches.isEmpty then "None" else joined)),
              ("Scan date", .jstr (pyStr (jget hibp "scanned_at" (.jstr "N/A"))))] }

/-- `domain = ssl.get("domain") or ssl.get("raw", {}).get("host") or "N/A"`,
with Python's short-circuit: the nested `.get("host")` (which raises on
a non-mapping `raw`) is only evaluated when `domain` is falsy. -/
def domainOf (ssl : List (String × JVal)) : Except String JVal := do
  let d := jget ssl "domain" .jnull
  if truthy d then return d
  else
    let rawv := jget ssl "raw" (.jobj [])
    let h ← pyGet rawv "host" .jnull
    if truthy h then return h else return .jstr "N/A"

/-- `ep0 = endpoints[0] if endpoints else {}` (source line 150). -/
def ep0Of (endpoints : JVal) : Except String JVal :=
  if truthy endpoints then pyIndex0 endpoints else pure (.jobj [])

/-- `details_obj = (ep0.get("details") or {}) if isinstance(ep0, dict) else {}`
(source line 151). -/
def detailsObjOf (ep0 : JVal) : JVal :=
  match ep0 with
  | .jobj e => pyOr (jget e "details" .jnull) (.jobj [])
  | _ => .jobj []

/-- Check 2, Website encryption (SSL Labs), source lines 130–178.
Returns the finding together with `protocol_names`, the list that
check 3 reuses without re-reading the input. -/
def finding2 (ssl : List (String × JVal)) :
    Except String (Finding × List String) := do
  let grade := gradeOf ssl
  let domain ← domainOf ssl
  let ipAddr := pyOr (jget ssl "ip_address" .jnull) (.jstr "N/A")
  let scannedAt := pyOr (jget ssl "scanned_at" .jnull) (.jstr "N/A")
  let shs : String × String × String :=
    if pyEqStr grade "A+" || pyEqStr grade "A" then
      ("PASS", "Great News!",
       "Our research indicates your website has a strong TLS configuration.")
    else if pyEqStr grade "N/A" then
      ("N/A", "N/A", "No SSL Labs grade was available in the provided data.")
    else
      ("RISK", "Bad News!",
       "Our research indicates your website TLS grade is below A, which may increase exposure to attack.")
  let epRaw := pyOr (jget ssl "raw" (.jobj [])) (.jobj [])
  let endpointsV ← pyGet epRaw "endpoints" .jnull
  let endpoints := pyOr endpointsV (.jarr [])
  let ep0 ← ep0Of endpoints
  let detailsObj := detailsObjOf ep0
  let protocolsV ← pyGet detailsObj "protocols" .jnull
  let protocols := pyOr protocolsV (.jarr [])
  let pItems ← pyIter protocols
  let protocolNames := pItems.filterMap (fun p =>
    match p with
    | JVal.jobj pfs =>
      some (pyStrip (pyStr (jget pfs "name" (.jstr "TLS")) ++ " " ++
             pyStr (jget pfs "version" (.jstr ""))))
    | _ => none)
  let protocolList :=
    if protocolNames.isEmpty then "N/A"
    else String.intercalate ", " protocolNames
  let vb ← pyGet detailsObj "vulnBeast" .jnull
  let oc ← pyGet detailsObj "ocspStapling" .jnull
  let rc ← pyGet detailsObj "supportsRc4" .jnull
  let f : Finding :=
    { number := 2
      title := "Website encryption"
      status := shs.1
      headline := shs.2.1
      summary := shs.2.2
      details :=
        [("Domain", domain),
         ("IP address", ipAddr),
         ("Overall grade", .jstr (pyStr grade)),
         ("Supported protocols", .jstr protocolList),
         ("BEAST vulnerability flag",
          if isNone vb then .jstr "N/A" else .jstr (pyStr vb)),
         ("OCSP stapling",
          if isNone oc then .jstr "N/A" else .jstr (pyStr oc)),
         ("RC4 supported",
          if isNone rc then .jstr "N/A" else .jstr (pyStr rc)),
         ("Scan date", .jstr (pyStr scannedAt))] }
  return (f, protocolNames)

/-- Python `"sub" in s` substring test. -/
def listContainsSub (needle : List Char) : List Char → Bool
  | [] => needle.isEmpty
  | c :: rest => needle.isPrefixOf (c :: rest) || listContainsSub needle rest

def strContains (hay sub : String) : Bool := listContainsSub sub.data hay.data

/-- Check 3, Legacy TLS (1.0/1.1), source lines 180–211: a pure
function of the `protocol_names` list assembled during check 2
(`protocol_list` is the same join the source computed there). -/
def finding3 (protocolNames : List String) : Finding :=
  let hasTls10 := protocolNames.any (fun x => strContains x "1.0")
  let hasTls11 := protocolNames.any (fun x => strContains x "1.1")
  let legacy := hasTls10 || hasTls11
  let protocolList :=
    if protocolNames.isEmpty then "N/A"
    else String.intercalate ", " protocolNames
  { number := 3
    title := "Website encryption downgrade (legacy TLS)"
    status :=
      if protocolNames.isEmpty then "N/A"
      else if legacy then "RISK" else "PASS"
    headline :=
      if protocolNames.isEmpty then "N/A"
      else if legacy then "Bad News!" else "Great News!"
    summary :=
      if protocolNames.isEmpty then
        "No protocol information was available in the provided data."
      else if legacy then
        "Our research indicates your website supports legacy TLS versions (1.0/1.1), which can reduce transport security."
      else
        "Our research indicates your website does not advertise legacy TLS 1.0/1.1 support."
    details :=
      [("TLS 1.0 supported",
        .jstr (if protocolNames.isEmpty then "N/A"
               else if hasTls10 then "True" else "False")),
       ("TLS 1.1 supported",
        .jstr (if protocolNames.isEmpty then "N/A"
               else if hasTls11 then "True" else "False")),
       ("Supported protocols", .jstr protocolList)] }

/-- `build_findings(hibp, ssl)`, source lines 89–213. -/
def buildFindings (hibp ssl : List (String × JVal)) :
    Except String (List Finding) := do
  let f1 ← finding1 hibp
  let (f2, protocolNames) ← finding2 ssl
  let f3 := finding3 protocolNames
  return [f1, f2, f3]

/-! ### Document engine (`generate_pdf_bytes`, story assembly)

The flowable list (`story`) built by `generate_pdf_bytes` before
`doc.build`, source lines 291–694.  Paragraph bodies of the long static
sections are abbreviated to a recognizable stand-in (the claims under
verification depend on section headings, break placement, table rows
and their order, never on the static prose).  Rich-text markup
(`<b>`, `<font color=...>`) inside cells and paragraphs is likewise
elided. -/

inductive PStyle where
  | h1
  | h2
  | body
deriving DecidableEq

inductive Flowable where
  | para (style : PStyle) (text : String)
  | gap
  | tbl (rows : List (List String))
  | keepTbl (rows : List (String × JVal))
  | pbreak

/-- The contents-page table data, source lines 301–307. -/
def contentsRows : List (List String) :=
  [["Summary", "3"],
   ["Information to Support NCSC Early Warning", "4"],
   ["High-Level Report Findings", "5"],
   ["Aim and Importance", "9"],
   ["Considerations", "16"]]

/-- Header row of the high-level findings table. -/
def hlHeader : List String := ["#", "Test", "Result", "Headline", "Summary"]

/-- One body row of the high-level findings table (number, title,
result, headline, summary), source lines 407–419. -/
def hlRow (f : Finding) : List String :=
  [toString f.number, f.title, f.status, f.headline, f.summary]

/-- The per-finding detail table: a fixed header row followed by the
finding's evidence pairs in order, source line 476. -/
def detailTableRows (f : Finding) : List (String × JVal) :=
  ("Metric", .jstr "Value") :: f.details

/-- The per-finding detail block, source lines 462–495: heading,
result line, summary, detail table (wrapped in `KeepTogether`), and a
forced page break. -/
def detailBlock (f : Finding) : List Flowable :=
  [.para .h2 (toString f.number ++ ". " ++ f.title),
   .para .body ("Result: " ++ f.status ++ "  " ++ f.headline),
   .gap,
   .para .body f.summary,
   .gap,
   .keepTbl (detailTableRows f),
   .pbreak]

/-- Concatenation of the detail blocks of all findings (the
`for f in findings` loop at source line 462). -/
def detailBlocks : List Finding → List Flowable
  | [] => []
  | f :: rest => detailBlock f ++ detailBlocks rest

def summaryText (bn em ws : String) : String :=
  "A cyber security health check has been carried out... Business name: "
    ++ bn ++ " Email: " ++ em ++ " Website: " ++ ws ++ " Tests included..."

def ncscText : String :=
  "The National Cyber Security Centre (NCSC) is the technical authority..."

def aimText : String :=
  "The aim of the health check is to raise awareness..."

def considerationsText : String :=
  "If any of the above test have failed - you may need to..."

/-- The full `story` list assembled by `generate_pdf_bytes`. -/
def storyOf (bn em ws : String) (findings : List Finding) : List Flowable :=
  [.gap,
   .para .h1 "Cyber Health Check Report",
   .para .h1 bn,
   .pbreak,
   .para .h2 "Document Contents Page",
   .tbl contentsRows,
   .pbreak,
   .para .h2 "Summary",
   .para .body (summaryText bn em ws),
   .pbreak,
   .para .h2 "Information to Support NCSC Early Warning",
   .para .body ncscText,
   .pbreak,
   .para .h2 "High-Level Report Findings",
   .tbl (hlHeader :: findings.map hlRow),
   .pbreak]
  ++ detailBlocks findings
  ++ [.para .h2 "Aim and Importance",
      .para .body aimText,
      .pbreak,
      .para .h2 "Considerations",
      .para .body considerationsText]

/-- Is this flowable a forced page break? -/
def isPBreak : Flowable → Bool
  | .pbreak => true
  | _ => false

/-- Number of forced page breaks in a story. -/
def countPBreaks (story : List Flowable) : Nat := story.countP isPBreak

/-- The section headings (H2 paragraphs) of a story, in document
order. -/
def h2Headings (story : List Flowable) : List String :=
  story.filterMap (fun fl =>
    match fl with
    | .para .h2 t => some t
    | _ => none)

/-! ### Helper lemmas -/

theorem exbind_ok_iff {α β : Type} (x : Except String α) (g : α → Except String β)
    (b : β) : (x >>= g = Except.ok b) ↔ ∃ a, x = .ok a ∧ g a = .ok b := by
  cases x <;> simp [Bind.bind, Except.bind]

theorem expure_ok_iff {α : Type} (a b : α) :
    (pure a : Except String α) = Except.ok b ↔ a = b := by
  simp [pure, Except.pure]

theorem pyGet_ok_iff (v : JVal) (k : String) (d x : JVal) :
    pyGet v k d = .ok x ↔ ∃ fs, v = .jobj fs ∧ x = jget fs k d := by
  cases v <;> simp [pyGet, eq_comm]

theorem pyToInt_ok_iff (v : JVal) (n : Int) :
    pyToInt v = .ok n ↔ pyToIntOpt v = some n := by
  unfold pyToInt
  cases h : pyToIntOpt v <;> simp

theorem finding1_shape (hibp : List (String × JVal)) (f : Finding)
    (h : finding1 hibp = .ok f) :
    f.number = 1 ∧ f.title = "Account compromise" ∧
    f.status = (if isPwnedOf hibp then "RISK" else "PASS") ∧
    f.headline = (if isPwnedOf hibp then "Bad News!" else "Great News!") := by
  unfold finding1 at h
  simp only [exbind_ok_iff, expure_ok_iff] at h
  obtain ⟨bf, hbf, breachesFound, hbfi, pf, hpf, pastesFound, hpfi,
    ipw, hipw, bv, hbv, items, hitems, joined, hjoined, hrec⟩ := h
  rw [pyGet_ok_iff] at hbf hipw
  obtain ⟨s, hs, hbfv⟩ := hbf
  obtain ⟨s2, hs2, hipwv⟩ := hipw
  rw [hs] at hs2
  cases hs2
  have hpw : isPwnedOf hibp = truthy ipw := by
    unfold isPwnedOf
    rw [hs, hipwv]
  subst hrec
  simp [hpw]

theorem finding2_shape (ssl : List (String × JVal)) (f : Finding)
    (pns : List String) (h : finding2 ssl = .ok (f, pns)) :
    f.number = 2 ∧ f.title = "Website encryption" ∧
    f.status = (if pyEqStr (gradeOf ssl) "A+" || pyEqStr (gradeOf ssl) "A"
                then "PASS"
                else if pyEqStr (gradeOf ssl) "N/A" then "N/A" else "RISK") ∧
    f.headline = (if pyEqStr (gradeOf ssl) "A+" || pyEqStr (gradeOf ssl) "A"
                  then "Great News!"
                  else if pyEqStr (gradeOf ssl) "N/A" then "N/A"
                  else "Bad News!") ∧
    f.details.get? 2 = some ("Overall grade", .jstr (pyStr (gradeOf ssl))) := by
  unfold finding2 at h
  simp only [exbind_ok_iff, expure_ok_iff] at h
  obtain ⟨domain, hdom, endpointsV, hep, ep0, hep0, protocolsV, hproto,
    pItems, hitems, vb, hvb, oc, hoc, rc, hrc, hrec⟩ := h
  obtain ⟨hf, hpns⟩ := Prod.mk.injEq .. ▸ hrec
  subst hf
  by_cases hc1 : (pyEqStr (gradeOf ssl) "A+" || pyEqStr (gradeOf ssl) "A") = true
  · simp [hc1]
  · by_cases hc2 : pyEqStr (gradeOf ssl) "N/A" = true
    · simp [hc1, hc2]
    · simp [hc1, hc2]

theorem buildFindings_ok (hibp ssl : List (String × JVal)) (fs : List Finding)
    (h : buildFindings hibp ssl = .ok fs) :
    ∃ f1 f2 pns, finding1 hibp = .ok f1 ∧ finding2 ssl = .ok (f2, pns) ∧
      fs = [f1, f2, finding3 pns] := by
  unfold buildFindings at h
  simp only [exbind_ok_iff, expure_ok_iff] at h
  obtain ⟨f1, h1, ⟨f2, pns⟩, h2, hrec⟩ := h
  exact ⟨f1, f2, pns, h1, h2, hrec.symm⟩

theorem pyEqStr_iff (v : JVal) (lit : String) :
    pyEqStr v lit = true ↔ v = .jstr lit := by
  cases v <;> simp [pyEqStr]

/-! ### Claim theorems -/

/-- C2: for every normalized hibp document accepted by `build_findings`,
the Account compromise finding (first in the list) has status RISK iff
`hibp.summary.is_pwned` is truthy (defaulting to false when `summary` or
`is_pwned` is absent, so an empty document yields PASS), and headline
"Bad News!" exactly when the status is RISK, "Great News!" otherwise. -/
theorem C2_account_compromise_status (hibp ssl : List (String × JVal))
    (fs : List Finding) (h : buildFindings hibp ssl = .ok fs) :
    ∃ f, fs.get? 0 = some f ∧ f.title = "Account compromise" ∧
      (f.status = "RISK" ↔ isPwnedOf hibp = true) ∧
      (f.status = "PASS" ↔ isPwnedOf hibp = false) ∧
      (f.headline = "Bad News!" ↔ f.status = "RISK") ∧
      (f.headline = "Great News!" ↔ f.status = "PASS") := by
  obtain ⟨f1, f2, pns, h1, h2, rfl⟩ := buildFindings_ok _ _ _ h
  obtain ⟨hn, ht, hst, hhl⟩ := finding1_shape _ _ h1
  refine ⟨f1, by simp, ht, ?_⟩
  cases hpw : isPwnedOf hibp <;> simp only [hpw] at hst hhl <;>
    simp [hst, hhl]

/-- Witness for C2: the pwned example document yields RISK / "Bad
News!", and the empty document yields PASS / "Great News!". -/
theorem C2_account_compromise_status_witness :
    ∃ f g, (∃ fs, buildFindings [("summary", JVal.jobj [("is_pwned", JVal.jbool true)])] [] = .ok fs ∧
        fs.get? 0 = some f) ∧ f.status = "RISK" ∧ f.headline = "Bad News!" ∧
      (∃ gs, buildFindings [] [] = .ok gs ∧ gs.get? 0 = some g) ∧
      g.status = "PASS" ∧ g.headline = "Great News!" := by
  obtain ⟨f, hf, _, hr, _, hb, _⟩ :=
    C2_account_compromise_status
      [("summary", JVal.jobj [("is_pwned", JVal.jbool true)])] [] _ rfl
  obtain ⟨g, hg, _, _, hp, _, hgr⟩ :=
    C2_account_compromise_status [] [] _ rfl
  have hrisk : f.status = "RISK" := hr.mpr (by decide)
  have hpass : g.status = "PASS" := hp.mpr (by decide)
  exact ⟨f, g, ⟨_, rfl, hf⟩, hrisk, hb.mpr hrisk, ⟨_, rfl, hg⟩,
    hpass, hgr.mpr hpass⟩

/-- C1: for every normalized ssl document accepted by `build_findings`,
the Website encryption finding (second in the list) has status PASS iff
the grade read from the top-level "grade" field (with the source's
defaulting: absent or falsy becomes "N/A") is "A" or "A+", status "N/A"
iff that grade is "N/A", and status RISK otherwise; the headline is
"Great News!" for PASS and "Bad News!" for RISK. -/
theorem C1_website_encryption_status (hibp ssl : List (String × JVal))
    (fs : List Finding) (h : buildFindings hibp ssl = .ok fs) :
    ∃ f, fs.get? 1 = some f ∧ f.title = "Website encryption" ∧
      (f.status = "PASS" ↔ (gradeOf ssl = .jstr "A+" ∨ gradeOf ssl = .jstr "A")) ∧
      (f.status = "N/A" ↔ gradeOf ssl = .jstr "N/A") ∧
      (f.status = "RISK" ↔
        ¬(gradeOf ssl = .jstr "A+" ∨ gradeOf ssl = .jstr "A" ∨
          gradeOf ssl = .jstr "N/A")) ∧
      (f.status = "PASS" → f.headline = "Great News!") ∧
      (f.status = "RISK" → f.headline = "Bad News!") := by
  obtain ⟨f1, f2, pns, h1, h2, rfl⟩ := buildFindings_ok _ _ _ h
  obtain ⟨hn, ht, hst, hhl, hdet⟩ := finding2_shape _ _ _ h2
  refine ⟨f2, by simp, ht, ?_⟩
  cases hgv : gradeOf ssl <;> rw [hgv] at hst hhl <;>
    simp only [pyEqStr] at hst hhl
  case jstr s =>
    by_cases hs1 : s = "A+" <;> by_cases hs2 : s = "A" <;>
      by_cases hs3 : s = "N/A" <;> simp_all
  all_goals simp_all

/-- Witness for C1: grade "A+" yields PASS / "Great News!", grade "B"
yields RISK / "Bad News!", and an empty ssl document yields "N/A". -/
theorem C1_website_encryption_status_witness :
    ∃ f g k,
      (∃ fs, buildFindings [] [("grade", JVal.jstr "A+")] = .ok fs ∧
        fs.get? 1 = some f) ∧ f.status = "PASS" ∧ f.headline = "Great News!" ∧
      (∃ gs, buildFindings [] [("grade", JVal.jstr "B")] = .ok gs ∧
        gs.get? 1 = some g) ∧ g.status = "RISK" ∧ g.headline = "Bad News!" ∧
      (∃ ks, buildFindings [] [] = .ok ks ∧ ks.get? 1 = some k) ∧
      k.status = "N/A" := by
  obtain ⟨f, hf, _, hfp, _, _, hfh, _⟩ :=
    C1_website_encryption_status [] [("grade", JVal.jstr "A+")] _ rfl
  obtain ⟨g, hg, _, _, _, hgr, _, hgh⟩ :=
    C1_website_encryption_status [] [("grade", JVal.jstr "B")] _ rfl
  obtain ⟨k, hk, _, _, hkn, _⟩ :=
    C1_website_encryption_status [] [] _ rfl
  have hgB : gradeOf [("grade", JVal.jstr "B")] = JVal.jstr "B" := rfl
  have hpass : f.status = "PASS" := by
    apply hfp.mpr
    left
    rfl
  have hrisk : g.status = "RISK" := by
    apply hgr.mpr
    rw [hgB]
    simp
  have hna : k.status = "N/A" := by
    apply hkn.mpr
    rfl
  exact ⟨f, g, k, ⟨_, rfl, hf⟩, hpass, hfh hpass,
    ⟨_, rfl, hg⟩, hrisk, hgh hrisk, ⟨_, rfl, hk⟩, hna⟩

/-- C3: the Legacy TLS finding (third in the list) is computed from the
`protocol_names` list assembled during Finding 2 (the second component
returned by `finding2`, not re-read from the input): status "N/A" iff
that list is empty, RISK iff some protocol name in it contains the
substring "1.0" or "1.1", and PASS otherwise. -/
theorem C3_legacy_tls_from_protocol_list (hibp ssl : List (String × JVal))
    (fs : List Finding) (h : buildFindings hibp ssl = .ok fs) :
    ∃ f2 pns, finding2 ssl = .ok (f2, pns) ∧
      fs.get? 2 = some (finding3 pns) ∧
      ((finding3 pns).status = "N/A" ↔ pns = []) ∧
      ((finding3 pns).status = "RISK" ↔ pns ≠ [] ∧
        ∃ x ∈ pns, strContains x "1.0" = true ∨ strContains x "1.1" = true) ∧
      ((finding3 pns).status = "PASS" ↔ pns ≠ [] ∧
        ∀ x ∈ pns, strContains x "1.0" = false ∧ strContains x "1.1" = false) := by
  obtain ⟨f1, f2, pns, h1, h2, rfl⟩ := buildFindings_ok _ _ _ h
  refine ⟨f2, pns, h2, by simp, ?_⟩
  have hst : (finding3 pns).status =
      (if pns.isEmpty then "N/A"
       else if pns.any (fun x => strContains x "1.0") ||
               pns.any (fun x => strContains x "1.1")
       then "RISK" else "PASS") := rfl
  cases pns with
  | nil => simp [hst]
  | cons a as =>
    have hne : ¬((a :: as).isEmpty = true) := by simp
    by_cases hl : ((a :: as).any (fun x => strContains x "1.0") ||
        (a :: as).any (fun x => strContains x "1.1")) = true
    · rw [if_neg hne, if_pos hl] at hst
      obtain ⟨x, hx, hc⟩ : ∃ x ∈ a :: as,
          strContains x "1.0" = true ∨ strContains x "1.1" = true := by
        rcases Bool.or_eq_true .. ▸ hl with h10 | h11
        · obtain ⟨x, hx, hc⟩ := List.any_eq_true.mp h10
          exact ⟨x, hx, Or.inl hc⟩
        · obtain ⟨x, hx, hc⟩ := List.any_eq_true.mp h11
          exact ⟨x, hx, Or.inr hc⟩
      refine ⟨by simp [hst], ?_, ?_⟩
      · rw [hst]
        constructor
        · intro _
          exact ⟨by simp, x, hx, hc⟩
        · intro _
          rfl
      · rw [hst]
        constructor
        · intro habs
          exact absurd habs (by simp)
        · rintro ⟨-, hall⟩
          obtain ⟨h1c, h2c⟩ := hall x hx
          rcases hc with hc | hc
          · rw [hc] at h1c
            exact absurd h1c (by simp)
          · rw [hc] at h2c
            exact absurd h2c (by simp)
    · rw [if_neg hne, if_neg hl] at hst
      rw [Bool.or_eq_true, not_or] at hl
      obtain ⟨h10, h11⟩ := hl
      refine ⟨by simp [hst], ?_, ?_⟩
      · rw [hst]
        constructor
        · intro habs
          exact absurd habs (by simp)
        · rintro ⟨-, x, hx, hc⟩
          rcases hc with hc | hc
          · exact absurd (List.any_eq_true.mpr ⟨x, hx, hc⟩) h10
          · exact absurd (List.any_eq_true.mpr ⟨x, hx, hc⟩) h11
      · rw [hst]
        constructor
        · intro _
          refine ⟨by simp, fun x hx => ⟨?_, ?_⟩⟩
          · exact Bool.eq_false_iff.mpr
              (fun hc => h10 (List.any_eq_true.mpr ⟨x, hx, hc⟩))
          · exact Bool.eq_false_iff.mpr
              (fun hc => h11 (List.any_eq_true.mpr ⟨x, hx, hc⟩))
        · intro _
          rfl


/-- Witness for C3: an endpoint advertising TLS 1.0 yields RISK, one
advertising only 1.2/1.3 yields PASS, and no endpoints yields "N/A". -/
theorem C3_legacy_tls_from_protocol_list_witness :
    ∃ fsa fa fsb fb fsc fc,
      buildFindings []
          [("raw", JVal.jobj [("endpoints", JVal.jarr [JVal.jobj
            [("details", JVal.jobj [("protocols", JVal.jarr
              [JVal.jobj [("name", JVal.jstr "TLS"),
                          ("version", JVal.jstr "1.0")]])])]])])] = .ok fsa ∧
      fsa.get? 2 = some fa ∧ fa.status = "RISK" ∧
      buildFindings []
          [("raw", JVal.jobj [("endpoints", JVal.jarr [JVal.jobj
            [("details", JVal.jobj [("protocols", JVal.jarr
              [JVal.jobj [("name", JVal.jstr "TLS"),
                          ("version", JVal.jstr "1.2")],
               JVal.jobj [("name", JVal.jstr "TLS"),
                          ("version", JVal.jstr "1.3")]])])]])])] = .ok fsb ∧
      fsb.get? 2 = some fb ∧ fb.status = "PASS" ∧
      buildFindings [] [] = .ok fsc ∧
      fsc.get? 2 = some fc ∧ fc.status = "N/A" := by
  obtain ⟨f2a, pnsa, h2a, hgeta, _, hriska, _⟩ :=
    C3_legacy_tls_from_protocol_list []
      [("raw", JVal.jobj [("endpoints", JVal.jarr [JVal.jobj
        [("details", JVal.jobj [("protocols", JVal.jarr
          [JVal.jobj [("name", JVal.jstr "TLS"),
                      ("version", JVal.jstr "1.0")]])])]])])] _ rfl
  obtain ⟨f2b, pnsb, h2b, hgetb, _, _, hpassb⟩ :=
    C3_legacy_tls_from_protocol_list []
      [("raw", JVal.jobj [("endpoints", JVal.jarr [JVal.jobj
        [("details", JVal.jobj [("protocols", JVal.jarr
          [JVal.jobj [("name", JVal.jstr "TLS"),
                      ("version", JVal.jstr "1.2")],
           JVal.jobj [("name", JVal.jstr "TLS"),
                      ("version", JVal.jstr "1.3")]])])]])])] _ rfl
  obtain ⟨f2c, pnsc, h2c, hgetc, hnac, _, _⟩ :=
    C3_legacy_tls_from_protocol_list [] [] _ rfl
  obtain ⟨fva, pva, hfva, hpva⟩ :
      ∃ f p, finding2 [("raw", JVal.jobj [("endpoints", JVal.jarr [JVal.jobj
        [("details", JVal.jobj [("protocols", JVal.jarr
          [JVal.jobj [("name", JVal.jstr "TLS"),
                      ("version", JVal.jstr "1.0")]])])]])])] = .ok (f, p) ∧
        p = ["TLS 1.0"] := ⟨_, _, rfl, rfl⟩
  obtain ⟨fvb, pvb, hfvb, hpvb⟩ :
      ∃ f p, finding2 [("raw", JVal.jobj [("endpoints", JVal.jarr [JVal.jobj
        [("details", JVal.jobj [("protocols", JVal.jarr
          [JVal.jobj [("name", JVal.jstr "TLS"),
                      ("version", JVal.jstr "1.2")],
           JVal.jobj [("name", JVal.jstr "TLS"),
                      ("version", JVal.jstr "1.3")]])])]])])] = .ok (f, p) ∧
        p = ["TLS 1.2", "TLS 1.3"] := ⟨_, _, rfl, rfl⟩
  obtain ⟨fvc, pvc, hfvc, hpvc⟩ :
      ∃ f p, finding2 [] = .ok (f, p) ∧ p = ([] : List String) :=
    ⟨_, _, rfl, rfl⟩
  have hpa : pnsa = ["TLS 1.0"] := by
    have := h2a.symm.trans hfva
    simp only [Except.ok.injEq, Prod.mk.injEq] at this
    exact this.2.trans hpva
  have hpb : pnsb = ["TLS 1.2", "TLS 1.3"] := by
    have := h2b.symm.trans hfvb
    simp only [Except.ok.injEq, Prod.mk.injEq] at this
    exact this.2.trans hpvb
  have hpc : pnsc = [] := by
    have := h2c.symm.trans hfvc
    simp only [Except.ok.injEq, Prod.mk.injEq] at this
    exact this.2.trans hpvc
  have hra : (finding3 pnsa).status = "RISK" := by
    apply hriska.mpr
    rw [hpa]
    exact ⟨by simp, "TLS 1.0", by simp, Or.inl rfl⟩
  have hrb : (finding3 pnsb).status = "PASS" := by
    apply hpassb.mpr
    rw [hpb]
    refine ⟨by simp, ?_⟩
    intro x hx
    simp only [List.mem_cons, List.not_mem_nil, or_false] at hx
    rcases hx with rfl | rfl
    · exact ⟨rfl, rfl⟩
    · exact ⟨rfl, rfl⟩
  have hrc : (finding3 pnsc).status = "N/A" := hnac.mpr hpc
  exact ⟨_, _, _, _, _, _, rfl, hgeta, hra, rfl, hgetb, hrb, rfl, hgetc, hrc⟩

theorem normalizeFields_eq_map (fs : List (String × JVal)) :
    normalizeFields fs = fs.map (fun kv => (kv.1, normalizeExt kv.2)) := by
  induction fs with
  | nil => rfl
  | cons p rest ih =>
    cases p
    simp [normalizeFields, ih]

theorem normalizeElems_eq_map (xs : List JVal) :
    normalizeElems xs = xs.map normalizeExt := by
  induction xs with
  | nil => rfl
  | cons x rest ih => simp [normalizeElems, ih]

/-- C4: the normalizer's recursive rewrite unwraps exactly the
single-key "$date" wrapper (value passed through unchanged) and the
single-key "$numberLong" wrapper (string converted to integer,
original string kept non-fatally when conversion fails); singleton
mappings with any other key and mappings with two or more keys are
rebuilt (not unwrapped) with the rewrite applied to each value, keys
kept in order, and sequences are rewritten elementwise in order — so
the rewrite acts uniformly at every depth. -/
theorem C4_normalizer_wrapper_rewrite :
    (∀ v, normalizeExt (.jobj [("$date", v)]) = v) ∧
    (∀ s n, pyParseInt s = some n →
      normalizeExt (.jobj [("$numberLong", .jstr s)]) = .jint n) ∧
    (∀ s, pyParseInt s = none →
      normalizeExt (.jobj [("$numberLong", .jstr s)]) = .jstr s) ∧
    (∀ k v, k ≠ "$date" → k ≠ "$numberLong" →
      normalizeExt (.jobj [(k, v)]) = .jobj [(k, normalizeExt v)]) ∧
    (∀ p q fs, normalizeExt (.jobj (p :: q :: fs)) =
      .jobj ((p :: q :: fs).map (fun kv => (kv.1, normalizeExt kv.2)))) ∧
    (∀ xs, normalizeExt (.jarr xs) = .jarr (xs.map normalizeExt)) := by
  refine ⟨?_, ?_, ?_, ?_, ?_, ?_⟩
  · intro v
    simp [normalizeExt]
  · intro s n hn
    simp [normalizeExt, pyToIntOpt, hn]
  · intro s hn
    simp [normalizeExt, pyToIntOpt, hn]
  · intro k v hk1 hk2
    simp [normalizeExt, hk1, hk2]
  · intro p q fs
    cases p
    cases q
    simp [normalizeExt, normalizeFields, normalizeFields_eq_map]
  · intro xs
    simp [normalizeExt, normalizeElems_eq_map]

/-- Witness for C4: the spec's three wrapper examples. -/
theorem C4_normalizer_wrapper_rewrite_witness :
    normalizeExt (.jobj [("$date", .jstr "2024-01-01")]) = .jstr "2024-01-01" ∧
    normalizeExt (.jobj [("$numberLong", .jstr "12345")]) = .jint 12345 ∧
    normalizeExt (.jobj [("$numberLong", .jstr "abc")]) = .jstr "abc" ∧
    normalizeExt (.jobj [("$dateOfBirth", .jstr "x")]) =
      .jobj [("$dateOfBirth", .jstr "x")] :=
  ⟨C4_normalizer_wrapper_rewrite.1 (.jstr "2024-01-01"),
   C4_normalizer_wrapper_rewrite.2.1 "12345" 12345 rfl,
   C4_normalizer_wrapper_rewrite.2.2.1 "abc" rfl,
   (C4_normalizer_wrapper_rewrite.2.2.2.1 "$dateOfBirth" (.jstr "x")
      (by decide) (by decide)).trans (by simp [normalizeExt])⟩

theorem stripToJson_eq_none_iff (t : List Char) :
    stripToJson t = none ↔ '{' ∉ t := by
  induction t with
  | nil => simp [stripToJson]
  | cons c rest ih =>
    by_cases hc : c = '{'
    · subst hc
      simp [stripToJson]
    · simp [stripToJson, hc, ih, Ne.symm hc]

/-- C5: `load_json_from_text` fails exactly when the input contains no
opening brace, or when the text from the first opening brace onward is
not valid JSON; in those cases the error propagates (an `Except.error`,
never a partial document), and otherwise the fully normalized document
is returned. -/
theorem C5_load_json_error_iff (text : List Char) :
    (stripToJson text = none ↔ '{' ∉ text) ∧
    ((∃ e, load_json_from_text text = .error e) ↔
      (stripToJson text = none ∨
       ∃ raw, stripToJson text = some raw ∧ jsonParse raw = none)) ∧
    (∀ v, load_json_from_text text = .ok v ↔
      ∃ raw d, stripToJson text = some raw ∧ jsonParse raw = some d ∧
        v = normalizeExt d) := by
  refine ⟨stripToJson_eq_none_iff text, ?_, ?_⟩
  · unfold load_json_from_text
    cases hs : stripToJson text with
    | none => simp
    | some raw =>
      cases hp : jsonParse raw with
      | none => simp [hp]
      | some d => simp [hp]
  · intro v
    unfold load_json_from_text
    cases hs : stripToJson text with
    | none => simp
    | some raw =>
      cases hp : jsonParse raw with
      | none => simp [hp]
      | some d => simp [hp, eq_comm]

/-- Witness for C5: a brace-free input and a truncated JSON input both
produce errors; noise followed by a complete JSON object succeeds, as
do documents holding a float literal or a `NaN` constant. -/
theorem C5_load_json_error_iff_witness :
    (∃ e, load_json_from_text ("abc".data) = .error e) ∧
    (∃ e, load_json_from_text ("\x7boops".data) = .error e) ∧
    load_json_from_text ("junk\x7b\x7d".data) = .ok (.jobj []) ∧
    load_json_from_text ("noise\x7b\"a\": 1.5\x7d".data) =
      .ok (.jobj [("a", .jfloat (.finite 15 (-1)))]) ∧
    load_json_from_text ("\x7b\"a\": NaN\x7d".data) =
      .ok (.jobj [("a", .jfloat .nan)]) := by
  refine ⟨?_, ?_, ?_, ?_, ?_⟩
  · exact (C5_load_json_error_iff ("abc".data)).2.1.mpr (Or.inl rfl)
  · exact (C5_load_json_error_iff ("\x7boops".data)).2.1.mpr
      (Or.inr ⟨_, rfl, rfl⟩)
  · exact ((C5_load_json_error_iff ("junk\x7b\x7d".data)).2.2 _).mpr
      ⟨_, _, rfl, rfl, by simp [normalizeExt, normalizeFields]⟩
  · exact ((C5_load_json_error_iff
        ("noise\x7b\"a\": 1.5\x7d".data)).2.2 _).mpr
      ⟨_, _, rfl, rfl, by simp [normalizeExt]; decide⟩
  · exact ((C5_load_json_error_iff ("\x7b\"a\": NaN\x7d".data)).2.2 _).mpr
      ⟨_, _, rfl, rfl, by simp [normalizeExt]⟩

theorem stripToJson_append_of_no_brace (pre t : List Char)
    (h : '{' ∉ pre) : stripToJson (pre ++ t) = stripToJson t := by
  induction pre with
  | nil => rfl
  | cons c rest ih =>
    simp only [List.mem_cons, not_or] at h
    simp only [List.cons_append, stripToJson, if_neg (Ne.symm h.1)]
    exact ih h.2

/-- C6: prepending the noise line "noise\n" (which contains no opening
brace) to any input leaves the result of `load_json_from_text`
unchanged — in particular, for any jsonText (with or without reserved
wrapper keys) that normalizes to a document, the noisy input normalizes
to exactly the same document. -/
theorem C6_noise_invariance (t : List Char) :
    load_json_from_text ("noise\n".data ++ t) = load_json_from_text t := by
  unfold load_json_from_text
  rw [stripToJson_append_of_no_brace _ _ (by decide)]

/-- The finding list produced when every optional field is absent: all
documented defaults ("N/A", 0, false, empty sequence) substituted. -/
def noDataFindings : List Finding :=
  [{ number := 1
     title := "Account compromise"
     status := "PASS"
     headline := "Great News!"
     summary := "Our dark web research indicates your email address has not been recorded as part of any data breaches."
     details := [("Email", .jstr "N/A"), ("Breaches found", .jstr "0"),
                 ("Pastes found", .jstr "0"), ("Breaches", .jstr "None"),
                 ("Scan date", .jstr "N/A")] },
   { number := 2
     title := "Website encryption"
     status := "N/A"
     headline := "N/A"
     summary := "No SSL Labs grade was available in the provided data."
     details := [("Domain", .jstr "N/A"), ("IP address", .jstr "N/A"),
                 ("Overall grade", .jstr "N/A"),
                 ("Supported protocols", .jstr "N/A"),
                 ("BEAST vulnerability flag", .jstr "N/A"),
                 ("OCSP stapling", .jstr "N/A"),
                 ("RC4 supported", .jstr "N/A"),
                 ("Scan date", .jstr "N/A")] },
   { number := 3
     title := "Website encryption downgrade (legacy TLS)"
     status := "N/A"
     headline := "N/A"
     summary := "No protocol information was available in the provided data."
     details := [("TLS 1.0 supported", .jstr "N/A"),
                 ("TLS 1.1 supported", .jstr "N/A"),
                 ("Supported protocols", .jstr "N/A")] }]

/-- C7: `build_findings` never fails on missing optional data — for
every pair of input mappings in which the optional fields are simply
absent (no `summary`, `raw`, `email`, `scanned_at` in the hibp
document and no `grade`, `domain`, `ip_address`, `scanned_at`, `raw`
in the ssl document; absence of the top-level containers entails
absence of every nested optional field), it returns the finding list
with the documented defaults substituted, raising no error.  (The
embedding's only `Except.error` outcomes in the loader are the two
`MalformedInputError` cases of C5, raised before `build_findings`.) -/
theorem C7_missing_fields_use_defaults (hibp ssl : List (String × JVal))
    (h1 : lookupKey hibp "summary" = none)
    (h2 : lookupKey hibp "raw" = none)
    (h3 : lookupKey hibp "email" = none)
    (h4 : lookupKey hibp "scanned_at" = none)
    (h5 : lookupKey ssl "grade" = none)
    (h6 : lookupKey ssl "domain" = none)
    (h7 : lookupKey ssl "ip_address" = none)
    (h8 : lookupKey ssl "scanned_at" = none)
    (h9 : lookupKey ssl "raw" = none) :
    buildFindings hibp ssl = .ok noDataFindings := by
  have e1 : jget hibp "summary" (.jobj []) = .jobj [] := by simp [jget, h1]
  have e2 : jget hibp "raw" (.jobj []) = .jobj [] := by simp [jget, h2]
  have e3 : jget hibp "email" (.jstr "N/A") = .jstr "N/A" := by simp [jget, h3]
  have e4 : jget hibp "scanned_at" (.jstr "N/A") = .jstr "N/A" := by
    simp [jget, h4]
  have e5 : jget ssl "grade" .jnull = .jnull := by simp [jget, h5]
  have e6 : jget ssl "domain" .jnull = .jnull := by simp [jget, h6]
  have e7 : jget ssl "ip_address" .jnull = .jnull := by simp [jget, h7]
  have e8 : jget ssl "scanned_at" .jnull = .jnull := by simp [jget, h8]
  have e9 : jget ssl "raw" (.jobj []) = .jobj [] := by simp [jget, h9]
  unfold buildFindings finding1 finding2 gradeOf domainOf
  rw [e1, e2, e3, e4, e5, e6, e7, e8, e9]
  rfl

/-- Witness for C7: inputs carrying only unrelated fields produce the
default finding list. -/
theorem C7_missing_fields_use_defaults_witness :
    buildFindings [("unrelated", JVal.jint 7)] [("other", JVal.jbool true)] =
      .ok noDataFindings :=
  C7_missing_fields_use_defaults [("unrelated", JVal.jint 7)]
    [("other", JVal.jbool true)] rfl rfl rfl rfl rfl rfl rfl rfl rfl

theorem keepTbl_mem_detailBlocks (f : Finding) (l : List Finding)
    (hf : f ∈ l) :
    Flowable.keepTbl (detailTableRows f) ∈ detailBlocks l := by
  induction l with
  | nil => cases hf
  | cons a rest ih =>
    rcases List.mem_cons.mp hf with rfl | hf2
    · simp [detailBlocks, detailBlock]
    · simp only [detailBlocks, List.mem_append]
      exact Or.inr (ih hf2)

theorem keepTbl_mem_story (bn em ws : String) (f : Finding)
    (l : List Finding) (hf : f ∈ l) :
    Flowable.keepTbl (detailTableRows f) ∈ storyOf bn em ws l := by
  unfold storyOf
  simp only [List.append_assoc, List.mem_append]
  exact Or.inr (Or.inl (keepTbl_mem_detailBlocks f l hf))

/-- C8: every finding list produced by `build_findings` satisfies the
Finding invariant — numbers are exactly 1, 2, 3 (1-based, strictly
increasing in emission order), every status is one of the three enum
literals, and each finding's evidence pairs appear in the rendered
detail table exactly in production order (the table is the fixed
header row followed by the `details` list unchanged). -/
theorem C8_finding_invariants (hibp ssl : List (String × JVal))
    (fs : List Finding) (h : buildFindings hibp ssl = .ok fs) :
    fs.map (fun f => f.number) = [1, 2, 3] ∧
    (∀ f ∈ fs, f.status = "PASS" ∨ f.status = "RISK" ∨ f.status = "N/A") ∧
    (∀ f ∈ fs, detailTableRows f = ("Metric", .jstr "Value") :: f.details) ∧
    (∀ bn em ws : String, ∀ f ∈ fs,
      Flowable.keepTbl (("Metric", .jstr "Value") :: f.details) ∈
        storyOf bn em ws fs) := by
  obtain ⟨f1, f2, pns, h1, h2, rfl⟩ := buildFindings_ok _ _ _ h
  obtain ⟨hn1, _, hst1, _⟩ := finding1_shape _ _ h1
  obtain ⟨hn2, _, hst2, _, _⟩ := finding2_shape _ _ _ h2
  have hn3 : (finding3 pns).number = 3 := rfl
  have hst3 : (finding3 pns).status =
      (if pns.isEmpty then "N/A"
       else if pns.any (fun x => strContains x "1.0") ||
               pns.any (fun x => strContains x "1.1")
       then "RISK" else "PASS") := rfl
  refine ⟨by simp [hn1, hn2, hn3], ?_, ?_, ?_⟩
  · intro f hf
    rcases List.mem_cons.mp hf with rfl | hf
    · rw [hst1]
      split
      · exact Or.inr (Or.inl rfl)
      · exact Or.inl rfl
    rcases List.mem_cons.mp hf with rfl | hf
    · rw [hst2]
      split
      · exact Or.inl rfl
      split
      · exact Or.inr (Or.inr rfl)
      · exact Or.inr (Or.inl rfl)
    rcases List.mem_cons.mp hf with rfl | hf
    · rw [hst3]
      split
      · exact Or.inr (Or.inr rfl)
      split
      · exact Or.inr (Or.inl rfl)
      · exact Or.inl rfl
    · cases hf
  · intro f _
    rfl
  · intro bn em ws f hf
    exact keepTbl_mem_story bn em ws f _ hf

/-- Witness for C8: the invariant instantiated on the empty inputs. -/
theorem C8_finding_invariants_witness :
    ∃ fs, buildFindings [] [] = .ok fs ∧
      fs.map (fun f => f.number) = [1, 2, 3] ∧
      (∀ f ∈ fs, f.status = "PASS" ∨ f.status = "RISK" ∨ f.status = "N/A") := by
  obtain ⟨hnum, hstat, _, _⟩ := C8_finding_invariants [] [] _ rfl
  exact ⟨_, rfl, hnum, hstat⟩

/-- C10: a present-but-falsy grade is conflated with an absent one —
whenever the ssl document's top-level "grade" field holds any falsy
value (null, false, 0, ""), the Website encryption finding has status
"N/A" (not RISK) with headline "N/A", and its "Overall grade" evidence
renders as "N/A", exactly as if the field were absent. -/
theorem C10_falsy_grade_conflated_with_absent (hibp ssl : List (String × JVal))
    (fs : List Finding) (v : JVal)
    (hv : lookupKey ssl "grade" = some v) (hfalsy : truthy v = false)
    (h : buildFindings hibp ssl = .ok fs) :
    ∃ f, fs.get? 1 = some f ∧ f.status = "N/A" ∧ f.headline = "N/A" ∧
      f.details.get? 2 = some ("Overall grade", .jstr "N/A") := by
  obtain ⟨f1, f2, pns, h1, h2, rfl⟩ := buildFindings_ok _ _ _ h
  obtain ⟨hn, ht, hst, hhl, hdet⟩ := finding2_shape _ _ _ h2
  have hg : gradeOf ssl = .jstr "N/A" := by
    simp [gradeOf, jget, hv, pyOr, hfalsy]
  rw [hg] at hst hhl hdet
  simp only [pyEqStr, String.reduceBEq, Bool.or_self, Bool.false_eq_true,
    if_false, String.reduceEq, if_true, beq_self_eq_true] at hst hhl
  refine ⟨f2, by simp, hst, hhl, ?_⟩
  rw [hdet]
  rfl

/-- Witness for C10: the empty-string, null, false and zero grades all
yield status "N/A" with the grade rendered "N/A". -/
theorem C10_falsy_grade_conflated_with_absent_witness :
    (∃ fs f, buildFindings [] [("grade", JVal.jstr "")] = .ok fs ∧
      fs.get? 1 = some f ∧ f.status = "N/A" ∧
      f.details.get? 2 = some ("Overall grade", .jstr "N/A")) ∧
    (∃ fs f, buildFindings [] [("grade", JVal.jnull)] = .ok fs ∧
      fs.get? 1 = some f ∧ f.status = "N/A") ∧
    (∃ fs f, buildFindings [] [("grade", JVal.jbool false)] = .ok fs ∧
      fs.get? 1 = some f ∧ f.status = "N/A") ∧
    (∃ fs f, buildFindings [] [("grade", JVal.jint 0)] = .ok fs ∧
      fs.get? 1 = some f ∧ f.status = "N/A") := by
  obtain ⟨fa, hga, hsa, _, hda⟩ :=
    C10_falsy_grade_conflated_with_absent [] [("grade", JVal.jstr "")] _
      (JVal.jstr "") rfl rfl rfl
  obtain ⟨fb, hgb, hsb, _, _⟩ :=
    C10_falsy_grade_conflated_with_absent [] [("grade", JVal.jnull)] _
      JVal.jnull rfl rfl rfl
  obtain ⟨fc, hgc, hsc, _, _⟩ :=
    C10_falsy_grade_conflated_with_absent [] [("grade", JVal.jbool false)] _
      (JVal.jbool false) rfl rfl rfl
  obtain ⟨fd, hgd, hsd, _, _⟩ :=
    C10_falsy_grade_conflated_with_absent [] [("grade", JVal.jint 0)] _
      (JVal.jint 0) rfl (by decide) rfl
  exact ⟨⟨_, fa, rfl, hga, hsa, hda⟩, ⟨_, fb, rfl, hgb, hsb⟩,
    ⟨_, fc, rfl, hgc, hsc⟩, ⟨_, fd, rfl, hgd, hsd⟩⟩

theorem countPBreaks_detailBlocks (l : List Finding) :
    countPBreaks (detailBlocks l) = l.length := by
  induction l with
  | nil => rfl
  | cons f rest ih =>
    simp only [detailBlocks, countPBreaks, List.countP_append] at ih ⊢
    rw [ih]
    simp [detailBlock, List.countP_cons, isPBreak]
    omega

theorem h2Headings_detailBlocks (l : List Finding) :
    h2Headings (detailBlocks l) =
      l.map (fun f => toString f.number ++ ". " ++ f.title) := by
  induction l with
  | nil => rfl
  | cons f rest ih =>
    simp only [detailBlocks, h2Headings, List.filterMap_append] at ih ⊢
    rw [ih]
    rfl

/-- C9 (amended): `generate_pdf_bytes` assembles the story in the fixed
order cover, contents, summary, static NCSC section, high-level
findings table, one detail block per finding, a second static section
("Aim and Importance"), and the closing considerations section; a
forced page break follows every section and every per-finding detail
block except the final considerations section, so the total number of
forced breaks is 6 + the number of findings (6 being the number of
fixed sections that a break follows), independent of input size or
content. -/
theorem C9_section_order_and_breaks (bn em ws : String)
    (hibp ssl : List (String × JVal)) (fs : List Finding)
    (h : buildFindings hibp ssl = .ok fs) :
    countPBreaks (storyOf bn em ws fs) = 6 + fs.length ∧
    h2Headings (storyOf bn em ws fs) =
      ["Document Contents Page", "Summary",
       "Information to Support NCSC Early Warning",
       "High-Level Report Findings"] ++
      fs.map (fun f => toString f.number ++ ". " ++ f.title) ++
      ["Aim and Importance", "Considerations"] ∧
    (storyOf bn em ws fs).getLast?.map isPBreak = some false := by
  refine ⟨?_, ?_, ?_⟩
  · unfold storyOf
    simp only [countPBreaks, List.countP_append, List.countP_cons,
      List.countP_nil, isPBreak]
    have := countPBreaks_detailBlocks fs
    unfold countPBreaks at this
    rw [this]
    simp
    omega
  · unfold storyOf
    simp only [h2Headings, List.filterMap_append]
    have := h2Headings_detailBlocks fs
    unfold h2Headings at this
    rw [this]
    rfl
  · have hml : (storyOf bn em ws fs).getLast? =
        some (Flowable.para PStyle.body considerationsText) := by
      unfold storyOf
      rw [List.getLast?_append, List.getLast?_append]
      rfl
    rw [hml]
    rfl

/-- Witness for C9 (amended): on empty inputs the story has 9 forced
breaks (6 + 3 findings) and ends without a break after the final
considerations section. -/
theorem C9_section_order_and_breaks_witness :
    ∃ fs, buildFindings [] [] = .ok fs ∧
      countPBreaks (storyOf "TBD" "TBD" "TBD" fs) = 6 + fs.length ∧
      (storyOf "TBD" "TBD" "TBD" fs).getLast?.map isPBreak = some false := by
  obtain ⟨hcount, _, hlast⟩ :=
    C9_section_order_and_breaks "TBD" "TBD" "TBD" [] [] _ rfl
  exact ⟨_, rfl, hcount, hlast⟩

/-- Counterexample for C9 as stated: on the empty inputs (whose three
findings are `noDataFindings`), the document contains an extra "Aim and
Importance" static section between the per-finding detail pages and the
closing considerations section — absent from the claim's fixed section
order — and the final considerations section is *not* followed by a
forced page break; the story holds 9 forced breaks, which is 6 + 3
findings, not 7 + 3 as "a break after every one of the seven fixed
sections" would give. -/
theorem C9_section_order_and_breaks_counterexample :
    h2Headings (storyOf "TBD" "TBD" "TBD" noDataFindings) =
      ["Document Contents Page", "Summary",
       "Information to Support NCSC Early Warning",
       "High-Level Report Findings",
       "1. Account compromise", "2. Website encryption",
       "3. Website encryption downgrade (legacy TLS)",
       "Aim and Importance", "Considerations"] ∧
    (storyOf "TBD" "TBD" "TBD" noDataFindings).getLast?.map isPBreak =
      some false ∧
    countPBreaks (storyOf "TBD" "TBD" "TBD" noDataFindings) = 9 ∧
    9 ≠ 7 + 3 := by
  refine ⟨rfl, rfl, rfl, by decide⟩
